import Mathlib

/-!
Verification of the Soundscape3 audio-reactive visualizer
(src/public/javascripts/Soundscape3/{DOM,Config,Morph}.js and the Utility
module).  Numbers are embedded as rationals; machine floats do not appear
in the algorithms' control flow except through comparisons that the
rational embedding models faithfully.
-/

namespace Soundscape

/-- Embeds `clamp` (Utility module): `Math.max(lo, Math.min(hi, v))`. -/
def clamp (v lo hi : ℚ) : ℚ := max lo (min hi v)

/-- Embeds `lerp` (Utility module): `a + (b - a) * t`. -/
def lerp (a b t : ℚ) : ℚ := a + (b - a) * t

/-- Embeds `smoothstepEdge` (DOM.js 797-800):
`t = clamp((x-a)/(b-a),0,1); t*t*(3-2*t)`. -/
def smoothstepEdge (a b x : ℚ) : ℚ :=
  let t := clamp ((x - a) / (b - a)) 0 1
  t * t * (3 - 2 * t)

/-! Config.js constants (Config.morph, Config.smoothing). -/

/-- Config.morph.threshold (Config.js 88). -/
def morphThreshold : ℚ := 55/100

/-- Config.morph.knee = 1.6 - 0.55 (Config.js 88). -/
def morphKnee : ℚ := 16/10 - 55/100

/-- Config.morph.attack (Config.js 88). -/
def morphAttack : ℚ := 7/100

/-- Config.morph.release (Config.js 88). -/
def morphRelease : ℚ := 5/100

/-- Config.morph.envInit (Config.js 88). -/
def morphEnvInit : ℚ := 9/10

/-- Config.smoothing.slow (Config.js 91). -/
def smoothingSlow : ℚ := 4/100

/-- Config.smoothing.fast (Config.js 91). -/
def smoothingFast : ℚ := 2/100

/-- The morph-gate parameters read from Config in the Visualizer constructor
(DOM.js 151-155). -/
structure MorphParams where
  threshold : ℚ
  knee : ℚ
  attack : ℚ
  release : ℚ

/-- The configured morph parameters (Config.js 88). -/
def configMorph : MorphParams :=
  { threshold := morphThreshold, knee := morphKnee,
    attack := morphAttack, release := morphRelease }

/-- The `desired` value of the morph gate, embedded from Visualizer.frame
(DOM.js 631-636): `start = T-K`, `end = T+K`, `gate = smoothstepEdge(start,end,x)`,
`lifted = clamp((x-start)/(1-start),0,1)`, `desired = clamp(gate*lifted*1.35,0,1)`. -/
def morphDesired (p : MorphParams) (x : ℚ) : ℚ :=
  let gateStart := p.threshold - p.knee
  let gateEnd := p.threshold + p.knee
  let gate := smoothstepEdge gateStart gateEnd x
  let lifted := clamp ((x - gateStart) / (1 - gateStart)) 0 1
  clamp (gate * lifted * (135/100)) 0 1

/-- The morph-envelope update of Visualizer.frame (DOM.js 637-638):
`rate = desired > env ? attack : release; env += (desired - env) * rate`. -/
def morphEnvStep (p : MorphParams) (x env : ℚ) : ℚ :=
  let desired := morphDesired p x
  let rate := if desired > env then p.attack else p.release
  env + (desired - env) * rate

/-- The morph-gate update written exactly as the specification sentence
states it (spec section 4.3, "Morph gate"), for comparison with the
source-embedded `morphEnvStep`. -/
def specMorphStep (T K att rel x env : ℚ) : ℚ :=
  let gateStart := T - K
  let gateEnd := T + K
  let t := clamp ((x - gateStart) / (gateEnd - gateStart)) 0 1
  let gate := t * t * (3 - 2 * t)
  let lifted := clamp ((x - gateStart) / (1 - gateStart)) 0 1
  let desired := clamp (gate * lifted * (135/100)) 0 1
  let rate := if desired > env then att else rel
  env + (desired - env) * rate

/-- C1: the morph gate computes, from fast-bass x, threshold T and knee K,
exactly the spec's gate/lifted/desired formulas and updates the envelope with
the attack rate when desired > env and the release rate otherwise; the
configured attack and release rates are distinct constants. -/
theorem morph_gate_formula (T K att rel x env : ℚ) :
    morphEnvStep { threshold := T, knee := K, attack := att, release := rel } x env
      = specMorphStep T K att rel x env
    ∧ configMorph.attack = morphAttack ∧ configMorph.release = morphRelease
    ∧ morphAttack ≠ morphRelease := by
  refine ⟨rfl, rfl, rfl, ?_⟩
  norm_num [morphAttack, morphRelease]

/-! Frequency-bin mapping and band extraction (DOM.js 503-535). -/

/-- JavaScript `Math.round`: rounds half toward positive infinity. -/
def jsRound (x : ℚ) : ℤ := ⌊x + 1/2⌋

/-- Embeds `Visualizer.freqToIndex` (DOM.js 503-507):
`nyq = sampleRate*0.5; frac = clamp(hz/nyq,0,1); Math.round(frac*(spec.length-1))`.
`binCount` is `this.spec.length` (the analyser's frequencyBinCount). -/
def freqToIndex (sampleRate : ℚ) (binCount : ℕ) (hz : ℚ) : ℤ :=
  let nyq := sampleRate * (1/2)
  let frac := clamp (hz / nyq) 0 1
  jsRound (frac * ((binCount : ℚ) - 1))

/-- The index formula as the specification sentence states it:
`index = round(clamp(hz / (sampleRate/2), 0, 1) * (binCount-1))`. -/
def specFreqToIndex (sampleRate : ℚ) (binCount : ℕ) (hz : ℚ) : ℤ :=
  jsRound (clamp (hz / (sampleRate / 2)) 0 1 * ((binCount : ℚ) - 1))

/-- Embeds the `avg` closure of `Visualizer.updateFFTAndBands` (DOM.js 512-520):
sums `spec[i]` for `i` from `max(0,i0)` to `min(N-1,i1)` inclusive and returns
`c ? s/(c*255) : 0` where `c` is the number of summed bins.  Snapshot samples
are the unsigned bytes of the analyser's `Uint8Array`. -/
def avg (spec : List ℕ) (i0 i1 : ℤ) : ℚ :=
  let N : ℤ := spec.length
  let lo := max 0 i0
  let hi := min (N - 1) i1
  if hi < lo then 0
  else
    let cnt := (hi - lo + 1).toNat
    (((List.range cnt).map (fun k => (spec.getD (lo.toNat + k) 0 : ℚ))).sum)
      / ((cnt : ℚ) * 255)

/-- The band record `{bass, mid, treble, overall}` (DOM.js 141, 525-528). -/
structure BandEnergy where
  bass : ℚ
  mid : ℚ
  treble : ℚ
  overall : ℚ
deriving DecidableEq

/-- The four band values computed by `Visualizer.updateFFTAndBands`
(DOM.js 521-528): bass 20-200 Hz, mid 110-1500 Hz, treble 20-3000 Hz,
overall 0-20000 Hz, each averaged over the corresponding bin range. -/
def extractBands (sampleRate : ℚ) (spec : List ℕ) : BandEnergy :=
  let fti := freqToIndex sampleRate spec.length
  { bass := avg spec (fti 20) (fti 200)
    mid := avg spec (fti 110) (fti 1500)
    treble := avg spec (fti 20) (fti 3000)
    overall := avg spec (fti 0) (fti 20000) }

/-- A band value as the specification sentence states it: the arithmetic mean
of the snapshot samples over the closed bin-index range with both endpoints
clamped into `[0, binCount-1]`, divided by 255, or 0 when that range is
empty. -/
def specBandValue (spec : List ℕ) (i0 i1 : ℤ) : ℚ :=
  let N : ℤ := spec.length
  let lo := min (N - 1) (max 0 i0)
  let hi := min (N - 1) (max 0 i1)
  if hi < lo then 0
  else
    let cnt := (hi - lo + 1).toNat
    ((((List.range cnt).map (fun k => (spec.getD (lo.toNat + k) 0 : ℚ))).sum)
      / (cnt : ℚ)) / 255

/-! Helper lemmas about clamp, getD and sums. -/

theorem clamp_mem (v lo hi : ℚ) (h : lo ≤ hi) :
    lo ≤ clamp v lo hi ∧ clamp v lo hi ≤ hi :=
  ⟨le_max_left _ _, max_le h (min_le_left _ _)⟩

theorem clamp_mono (lo hi a b : ℚ) (h : a ≤ b) : clamp a lo hi ≤ clamp b lo hi :=
  max_le_max le_rfl (min_le_min le_rfl h)

theorem getD_le_of_forall_le (spec : List ℕ) (c : ℕ) (hv : ∀ v ∈ spec, v ≤ c)
    (i : ℕ) : spec.getD i 0 ≤ c := by
  induction spec generalizing i with
  | nil => simp [List.getD]
  | cons a l ih =>
    cases i with
    | zero => simpa [List.getD] using hv a (List.mem_cons_self a l)
    | succ j =>
      simp only [List.getD_cons_succ]
      exact ih (fun v hvv => hv v (List.mem_cons_of_mem a hvv)) j

theorem getD_eq_zero_of_forall_zero (spec : List ℕ) (hv : ∀ v ∈ spec, v = 0)
    (i : ℕ) : spec.getD i 0 = 0 := by
  induction spec generalizing i with
  | nil => simp [List.getD]
  | cons a l ih =>
    cases i with
    | zero => simpa [List.getD] using hv a (List.mem_cons_self a l)
    | succ j =>
      simp only [List.getD_cons_succ]
      exact ih (fun v hvv => hv v (List.mem_cons_of_mem a hvv)) j

theorem sum_range_map_le (cnt : ℕ) (f : ℕ → ℚ) (c : ℚ) (hb : ∀ k, f k ≤ c) :
    ((List.range cnt).map f).sum ≤ cnt * c := by
  induction cnt with
  | zero => simp
  | succ n ih =>
    rw [List.range_succ, List.map_append, List.sum_append]
    have hn := hb n
    have : (((n + 1 : ℕ) : ℚ)) * c = (n : ℚ) * c + c := by push_cast; ring
    rw [this]
    simp only [List.map_cons, List.map_nil, List.sum_cons, List.sum_nil, add_zero]
    exact add_le_add ih hn

theorem avg_nonneg (spec : List ℕ) (i0 i1 : ℤ) : 0 ≤ avg spec i0 i1 := by
  simp only [avg]
  split
  · exact le_refl 0
  · apply div_nonneg
    · apply List.sum_nonneg
      intro x hx
      obtain ⟨k, _, rfl⟩ := List.mem_map.1 hx
      positivity
    · positivity

theorem avg_le_one (spec : List ℕ) (hv : ∀ v ∈ spec, v ≤ 255) (i0 i1 : ℤ) :
    avg spec i0 i1 ≤ 1 := by
  simp only [avg]
  split
  · norm_num
  · rename_i hcond
    have hle : max 0 i0 ≤ min ((spec.length : ℤ) - 1) i1 := le_of_not_lt hcond
    set lo := max 0 i0 with hlo
    set hi := min ((spec.length : ℤ) - 1) i1 with hhi
    have hcnt1 : 1 ≤ (hi - lo + 1).toNat := by omega
    have hcpos : (0 : ℚ) < ((hi - lo + 1).toNat : ℚ) * 255 := by
      have : (1 : ℚ) ≤ ((hi - lo + 1).toNat : ℚ) := by exact_mod_cast hcnt1
      nlinarith
    rw [div_le_one hcpos]
    apply sum_range_map_le
    intro k
    have := getD_le_of_forall_le spec 255 hv (lo.toNat + k)
    exact_mod_cast this

theorem avg_of_all_zero (spec : List ℕ) (hv : ∀ v ∈ spec, v = 0) (i0 i1 : ℤ) :
    avg spec i0 i1 = 0 := by
  simp only [avg]
  split
  · rfl
  · rw [List.sum_eq_zero, zero_div]
    intro x hx
    obtain ⟨k, _, rfl⟩ := List.mem_map.1 hx
    rw [getD_eq_zero_of_forall_zero spec hv]
    norm_num

theorem avg_eq_specBandValue (spec : List ℕ) (i0 i1 : ℤ)
    (h00 : 0 ≤ i0) (h01 : i0 ≤ (spec.length : ℤ) - 1)
    (h10 : 0 ≤ i1) (h11 : i1 ≤ (spec.length : ℤ) - 1) :
    avg spec i0 i1 = specBandValue spec i0 i1 := by
  simp only [avg, specBandValue]
  rw [max_eq_right h00, max_eq_right h10, min_eq_right h01, min_eq_right h11]
  split
  · rfl
  · rw [div_div]

/-- Bounds on freqToIndex: for any sample rate the result lies in
`[0, binCount-1]` as soon as there is at least one bin, because the frequency
fraction is clamped into `[0,1]` before scaling and rounding. -/
theorem freqToIndex_bounds (sampleRate : ℚ) (binCount : ℕ) (hz : ℚ)
    (hn : 1 ≤ binCount) :
    0 ≤ freqToIndex sampleRate binCount hz ∧
    freqToIndex sampleRate binCount hz ≤ (binCount : ℤ) - 1 := by
  have hc := clamp_mem (hz / (sampleRate * (1/2))) 0 1 (by norm_num)
  have hb : (0 : ℚ) ≤ (binCount : ℚ) - 1 := by
    have : (1 : ℚ) ≤ (binCount : ℚ) := by exact_mod_cast hn
    linarith
  constructor
  · apply Int.floor_nonneg.2
    have : 0 ≤ clamp (hz / (sampleRate * (1/2))) 0 1 * ((binCount : ℚ) - 1) :=
      mul_nonneg hc.1 hb
    linarith
  · show jsRound _ ≤ _
    unfold jsRound
    have hle : clamp (hz / (sampleRate * (1/2))) 0 1 * ((binCount : ℚ) - 1)
        ≤ (binCount : ℚ) - 1 := mul_le_of_le_one_left hb hc.2
    have : (⌊clamp (hz / (sampleRate * (1/2))) 0 1 * ((binCount : ℚ) - 1) + 1/2⌋ : ℤ)
        ≤ ⌊((((binCount : ℤ) - 1 : ℤ) : ℚ)) + 1/2⌋ := by
      apply Int.floor_le_floor
      push_cast
      linarith
    calc (⌊clamp (hz / (sampleRate * (1/2))) 0 1 * ((binCount : ℚ) - 1) + 1/2⌋ : ℤ)
        ≤ ⌊((((binCount : ℤ) - 1 : ℤ) : ℚ)) + 1/2⌋ := this
      _ = (binCount : ℤ) - 1 := by
          rw [Int.floor_int_add]
          norm_num

theorem clamp01_eq_one (v : ℚ) (h : 1 ≤ v) : clamp v 0 1 = 1 := by
  unfold clamp
  rw [min_eq_left h]
  simp

theorem jsRound_eq (x : ℚ) (z : ℤ) (h1 : (z : ℚ) ≤ x + 1/2) (h2 : x + 1/2 < z + 1) :
    jsRound x = z :=
  Int.floor_eq_iff.2 ⟨h1, h2⟩

/-- C3: `freqToIndex` equals the spec's formula
`round(clamp(hz/(sampleRate/2),0,1)*(binCount-1))`; with 44100 Hz and 1024
bins it maps 0 to 0 and every frequency ≥ 22050 to 1023; for fixed positive
sample rate the index is monotone non-decreasing in hz; and it never exceeds
binCount-1 for sample rates from 8 kHz to 192 kHz. -/
theorem freqToIndex_spec :
    (∀ sampleRate : ℚ, ∀ binCount : ℕ, ∀ hz : ℚ,
        freqToIndex sampleRate binCount hz = specFreqToIndex sampleRate binCount hz) ∧
    freqToIndex 44100 1024 0 = 0 ∧
    (∀ hz : ℚ, 22050 ≤ hz → freqToIndex 44100 1024 hz = 1023) ∧
    (∀ sampleRate : ℚ, ∀ binCount : ℕ, ∀ hz hz' : ℚ,
        0 < sampleRate → 1 ≤ binCount → hz ≤ hz' →
        freqToIndex sampleRate binCount hz ≤ freqToIndex sampleRate binCount hz') ∧
    (∀ sampleRate : ℚ, ∀ binCount : ℕ, ∀ hz : ℚ,
        8000 ≤ sampleRate → sampleRate ≤ 192000 → 1 ≤ binCount →
        freqToIndex sampleRate binCount hz ≤ (binCount : ℤ) - 1) := by
  refine ⟨?_, ?_, ?_, ?_, ?_⟩
  · intro s n hz
    simp only [freqToIndex, specFreqToIndex, mul_one_div]
  · show jsRound (clamp ((0 : ℚ) / (44100 * (1/2))) 0 1 * (((1024 : ℕ) : ℚ) - 1)) = 0
    have h0 : clamp ((0 : ℚ) / (44100 * (1/2))) 0 1 = 0 := by
      unfold clamp
      rw [zero_div, min_eq_right (by norm_num : (0:ℚ) ≤ 1), max_self]
    rw [h0, zero_mul]
    exact jsRound_eq 0 0 (by norm_num) (by norm_num)
  · intro hz hhz
    have h1 : (1 : ℚ) ≤ hz / (44100 * (1/2)) := by
      rw [show (44100 * (1/2) : ℚ) = 22050 by norm_num]
      rw [one_le_div (by norm_num : (0:ℚ) < 22050)]
      exact hhz
    show jsRound (clamp (hz / (44100 * (1/2))) 0 1 * (((1024 : ℕ) : ℚ) - 1)) = 1023
    rw [clamp01_eq_one _ h1, one_mul]
    exact jsRound_eq _ 1023 (by push_cast; norm_num) (by push_cast; norm_num)
  · intro s n hz hz' hs hn hh
    simp only [freqToIndex, jsRound]
    apply Int.floor_le_floor
    apply add_le_add_right
    apply mul_le_mul_of_nonneg_right
    · apply clamp_mono
      exact (div_le_div_iff_of_pos_right (mul_pos hs (by norm_num))).2 hh
    · have : (1 : ℚ) ≤ (n : ℚ) := by exact_mod_cast hn
      linarith
  · intro s n hz _ _ hn
    exact (freqToIndex_bounds s n hz hn).2

theorem freqToIndex_spec_witness :
    freqToIndex 44100 1024 30000 = 1023 ∧
    freqToIndex 44100 1024 100 ≤ freqToIndex 44100 1024 200 ∧
    freqToIndex 8000 256 999999 ≤ (256 : ℤ) - 1 :=
  ⟨freqToIndex_spec.2.2.1 30000 (by norm_num),
   freqToIndex_spec.2.2.2.1 44100 1024 100 200 (by norm_num) (by norm_num) (by norm_num),
   freqToIndex_spec.2.2.2.2 8000 256 999999 (by norm_num) (by norm_num) (by norm_num)⟩

/-- C2: for every snapshot whose byte samples lie in [0,255] (with at least
one bin), the four extracted band values lie in [0,1], and each equals the
spec's formula: the mean of snapshot samples normalized by 255 over the
closed bin range of the band (endpoints clamped into [0,binCount-1]), or 0
when that range is empty. -/
theorem extractBands_spec (sampleRate : ℚ) (spec : List ℕ)
    (hv : ∀ v ∈ spec, v ≤ 255) (hN : 1 ≤ spec.length) :
    (0 ≤ (extractBands sampleRate spec).bass ∧ (extractBands sampleRate spec).bass ≤ 1) ∧
    (0 ≤ (extractBands sampleRate spec).mid ∧ (extractBands sampleRate spec).mid ≤ 1) ∧
    (0 ≤ (extractBands sampleRate spec).treble ∧ (extractBands sampleRate spec).treble ≤ 1) ∧
    (0 ≤ (extractBands sampleRate spec).overall ∧ (extractBands sampleRate spec).overall ≤ 1) ∧
    (extractBands sampleRate spec).bass
      = specBandValue spec (freqToIndex sampleRate spec.length 20)
          (freqToIndex sampleRate spec.length 200) ∧
    (extractBands sampleRate spec).mid
      = specBandValue spec (freqToIndex sampleRate spec.length 110)
          (freqToIndex sampleRate spec.length 1500) ∧
    (extractBands sampleRate spec).treble
      = specBandValue spec (freqToIndex sampleRate spec.length 20)
          (freqToIndex sampleRate spec.length 3000) ∧
    (extractBands sampleRate spec).overall
      = specBandValue spec (freqToIndex sampleRate spec.length 0)
          (freqToIndex sampleRate spec.length 20000) := by
  have hb := fun hz => freqToIndex_bounds sampleRate spec.length hz hN
  simp only [extractBands]
  exact ⟨⟨avg_nonneg _ _ _, avg_le_one _ hv _ _⟩,
    ⟨avg_nonneg _ _ _, avg_le_one _ hv _ _⟩,
    ⟨avg_nonneg _ _ _, avg_le_one _ hv _ _⟩,
    ⟨avg_nonneg _ _ _, avg_le_one _ hv _ _⟩,
    avg_eq_specBandValue _ _ _ (hb 20).1 (hb 20).2 (hb 200).1 (hb 200).2,
    avg_eq_specBandValue _ _ _ (hb 110).1 (hb 110).2 (hb 1500).1 (hb 1500).2,
    avg_eq_specBandValue _ _ _ (hb 20).1 (hb 20).2 (hb 3000).1 (hb 3000).2,
    avg_eq_specBandValue _ _ _ (hb 0).1 (hb 0).2 (hb 20000).1 (hb 20000).2⟩

theorem extractBands_spec_witness :
    0 ≤ (extractBands 44100 [10, 255, 0, 7]).bass ∧
    (extractBands 44100 [10, 255, 0, 7]).bass ≤ 1 :=
  (extractBands_spec 44100 [10, 255, 0, 7] (by decide) (by decide)).1

/-! C4: the morph envelope stays in [0,1]. -/

/-- The envelope after folding the per-frame update over a sequence of
fast-bass inputs (one `morphEnvStep` per frame, as in Visualizer.frame). -/
def morphEnvRun (p : MorphParams) (env0 : ℚ) (xs : List ℚ) : ℚ :=
  xs.foldl (fun e x => morphEnvStep p x e) env0

theorem morphDesired_mem (p : MorphParams) (x : ℚ) :
    0 ≤ morphDesired p x ∧ morphDesired p x ≤ 1 :=
  clamp_mem _ 0 1 (by norm_num)

theorem morphEnvStep_mem (p : MorphParams) (x env : ℚ)
    (h0 : 0 ≤ env) (h1 : env ≤ 1)
    (ha0 : 0 ≤ p.attack) (ha1 : p.attack ≤ 1)
    (hr0 : 0 ≤ p.release) (hr1 : p.release ≤ 1) :
    0 ≤ morphEnvStep p x env ∧ morphEnvStep p x env ≤ 1 := by
  obtain ⟨hd0, hd1⟩ := morphDesired_mem p x
  simp only [morphEnvStep]
  set d := morphDesired p x with hd
  by_cases hc : d > env
  · rw [if_pos hc]
    constructor <;> nlinarith
  · rw [if_neg hc]
    constructor <;> nlinarith

/-- C4: for every sequence of per-frame fast-bass inputs, the morph envelope
stays in [0,1] after every update, provided it starts in [0,1] and the attack
and release rates lie in (0,1]. -/
theorem morphEnvRun_mem (p : MorphParams) (env0 : ℚ) (xs : List ℚ)
    (h0 : 0 ≤ env0) (h1 : env0 ≤ 1)
    (ha0 : 0 < p.attack) (ha1 : p.attack ≤ 1)
    (hr0 : 0 < p.release) (hr1 : p.release ≤ 1) :
    0 ≤ morphEnvRun p env0 xs ∧ morphEnvRun p env0 xs ≤ 1 := by
  induction xs generalizing env0 with
  | nil => exact ⟨h0, h1⟩
  | cons x xs ih =>
    have hs := morphEnvStep_mem p x env0 h0 h1 ha0.le ha1 hr0.le hr1
    simpa only [morphEnvRun, List.foldl_cons] using ih (morphEnvStep p x env0) hs.1 hs.2

theorem morphEnvRun_mem_witness :
    0 ≤ morphEnvRun configMorph (9/10) [1/2, 3, -2, 0] ∧
    morphEnvRun configMorph (9/10) [1/2, 3, -2, 0] ≤ 1 :=
  morphEnvRun_mem configMorph (9/10) [1/2, 3, -2, 0]
    (by norm_num) (by norm_num)
    (by norm_num [configMorph, morphAttack]) (by norm_num [configMorph, morphAttack])
    (by norm_num [configMorph, morphRelease]) (by norm_num [configMorph, morphRelease])

/-! C8: the exponential smoothing tracks (DOM.js 529-533, using `lerp`). -/

/-- One smoothing-track update (DOM.js 529-533):
`smoothed = lerp(smoothed, raw, k)`. -/
def emaStep (k s raw : ℚ) : ℚ := lerp s raw k

/-- The smoothed value after n updates fed with the constant input c. -/
def emaConstIter (k s0 c : ℚ) : ℕ → ℚ
  | 0 => s0
  | n + 1 => emaStep k (emaConstIter k s0 c n) c

theorem emaConstIter_closed (k s0 c : ℚ) (n : ℕ) :
    emaConstIter k s0 c n = c + (s0 - c) * (1 - k) ^ n := by
  induction n with
  | zero => simp [emaConstIter]
  | succ m ih =>
    show emaStep k (emaConstIter k s0 c m) c = _
    rw [ih]
    unfold emaStep lerp
    ring

/-- C8: each smoothing track updates as
`smoothed_t = smoothed_(t-1) + (raw_t - smoothed_(t-1)) * k`; with `k = 1`
the smoothed value equals the input after one update; and for `k` in (0,1]
a constant input drives the smoothed value to that input within any positive
tolerance after enough iterations. -/
theorem emaStep_spec (k s0 c : ℚ) (hk0 : 0 < k) (hk1 : k ≤ 1) :
    (∀ s raw : ℚ, emaStep k s raw = s + (raw - s) * k) ∧
    (∀ s raw : ℚ, emaStep 1 s raw = raw) ∧
    (∀ ε : ℚ, 0 < ε → ∃ N : ℕ, ∀ n : ℕ, N ≤ n →
        |emaConstIter k s0 c n - c| ≤ ε) := by
  refine ⟨fun s raw => rfl, fun s raw => by unfold emaStep lerp; ring, ?_⟩
  intro ε hε
  rcases eq_or_ne s0 c with h | h
  · refine ⟨0, fun n _ => ?_⟩
    rw [emaConstIter_closed, h]
    simpa using hε.le
  · have habs : 0 < |s0 - c| := abs_pos.2 (sub_ne_zero.2 h)
    have h1k0 : (0 : ℚ) ≤ 1 - k := by linarith
    obtain ⟨N, hN⟩ := exists_pow_lt_of_lt_one (div_pos hε habs)
      (by linarith : (1 : ℚ) - k < 1)
    refine ⟨N, fun n hn => ?_⟩
    rw [emaConstIter_closed]
    have hmono : (1 - k) ^ n ≤ (1 - k) ^ N :=
      pow_le_pow_of_le_one h1k0 (by linarith) hn
    have heq : |c + (s0 - c) * (1 - k) ^ n - c| = |s0 - c| * (1 - k) ^ n := by
      rw [add_sub_cancel_left, abs_mul, abs_pow, abs_of_nonneg h1k0]
    rw [heq]
    have hlt : (1 - k) ^ N * |s0 - c| < ε := (lt_div_iff₀ habs).1 hN
    nlinarith [pow_nonneg h1k0 n, pow_nonneg h1k0 N]

theorem emaStep_spec_witness :
    (0 : ℚ) < 1/2 ∧ (1/2 : ℚ) ≤ 1 ∧ emaStep 1 (1/2) (1/3) = 1/3 :=
  ⟨by norm_num, by norm_num,
   (emaStep_spec (1/2) 0 1 (by norm_num) (by norm_num)).2.1 (1/2) (1/3)⟩

/-! C6, C7: `buildOrLoadRadialMorphTarget` (Morph.js 14-56). -/

/-- A 3D vector (three.js Vector3 components). -/
structure Vec3 where
  x : ℚ
  y : ℚ
  z : ℚ
deriving DecidableEq

/-- The deterministic inputs of the bake loop of
`buildOrLoadRadialMorphTarget` (Morph.js 35-52): `dirs` are the base-mesh
vertex positions normalized to unit directions (Morph.js 37), and
`intersectDistance` is the distance to the first ray hit on the normalized
static target returned by the three.js `Raycaster` (Morph.js 38-40, an
external deterministic collaborator), `none` when the ray misses. -/
structure BakeInput where
  dirs : List Vec3
  intersectDistance : Vec3 → Option ℚ

/-- The body of the bake loop (Morph.js 35-52): for each direction `v`,
`d = hit ? hit[0].distance : 1.0` and the three written components are
`v.x*d, v.y*d, v.z*d`, in vertex order. -/
def bakeVertexList (hit : Vec3 → Option ℚ) : List Vec3 → List ℚ
  | [] => []
  | v :: rest =>
    let d := (hit v).getD 1
    v.x * d :: v.y * d :: v.z * d :: bakeVertexList hit rest

/-- The freshly computed morph field (the `target` array of Morph.js 30-52). -/
def bakeField (inp : BakeInput) : List ℚ := bakeVertexList inp.intersectDistance inp.dirs

/-- Embeds `buildOrLoadRadialMorphTarget` (Morph.js 14-56) against an explicit
cache state.  The external localStorage/JSON collaborators round-trip the
flat float array exactly, so the cache is modelled as holding the number
sequence itself.  A cached array is returned only when its length equals the
base geometry's position-array length (`3 * vertex count`, Morph.js 21);
otherwise the field is recomputed and stored (Morph.js 24-54).  Returns the
resulting field together with the cache state after the call. -/
def buildOrLoadRadialMorphTarget (inp : BakeInput) (cache : Option (List ℚ)) :
    List ℚ × Option (List ℚ) :=
  match cache with
  | some arr =>
    if arr.length = 3 * inp.dirs.length then (arr, some arr)
    else
      let t := bakeField inp
      (t, some t)
  | none =>
    let t := bakeField inp
    (t, some t)

theorem bakeVertexList_length (hit : Vec3 → Option ℚ) (l : List Vec3) :
    (bakeVertexList hit l).length = 3 * l.length := by
  induction l with
  | nil => simp [bakeVertexList]
  | cons v rest ih =>
    simp only [bakeVertexList, List.length_cons, ih]
    ring

theorem bakeField_length (inp : BakeInput) :
    (bakeField inp).length = 3 * inp.dirs.length :=
  bakeVertexList_length _ _

/-- C6: baking a morph field, storing it in the cache, and reloading it from
the cache with the matching vertex count yields a field identical to the
freshly computed one. -/
theorem bake_cache_roundtrip (inp : BakeInput) :
    (buildOrLoadRadialMorphTarget inp
        (buildOrLoadRadialMorphTarget inp none).2).1
      = (buildOrLoadRadialMorphTarget inp none).1 ∧
    (buildOrLoadRadialMorphTarget inp none).1 = bakeField inp := by
  constructor
  · show (buildOrLoadRadialMorphTarget inp (some (bakeField inp))).1 = bakeField inp
    simp only [buildOrLoadRadialMorphTarget]
    rw [if_pos (bakeField_length inp)]
  · rfl

/-- C7: a cached array whose length differs from the base geometry's
position-array length (vertex count × 3) is never returned; the field is
recomputed from scratch, and the recomputed field also replaces the bad
entry as the value that is stored. -/
theorem bake_cache_mismatch (inp : BakeInput) (arr : List ℚ)
    (h : arr.length ≠ 3 * inp.dirs.length) :
    (buildOrLoadRadialMorphTarget inp (some arr)).1 = bakeField inp ∧
    (buildOrLoadRadialMorphTarget inp (some arr)).1 ≠ arr ∧
    (buildOrLoadRadialMorphTarget inp (some arr)).2 = some (bakeField inp) := by
  have hres : buildOrLoadRadialMorphTarget inp (some arr)
      = (bakeField inp, some (bakeField inp)) := by
    simp only [buildOrLoadRadialMorphTarget]
    rw [if_neg h]
  refine ⟨by rw [hres], ?_, by rw [hres]⟩
  rw [hres]
  intro hcontra
  exact h (by rw [← hcontra, bakeField_length inp])

theorem bake_cache_mismatch_witness :
    (buildOrLoadRadialMorphTarget ⟨[⟨1, 0, 0⟩], fun _ => none⟩ (some [5, 7])).1
      = bakeField ⟨[⟨1, 0, 0⟩], fun _ => none⟩ ∧
    (buildOrLoadRadialMorphTarget ⟨[⟨1, 0, 0⟩], fun _ => none⟩ (some [5, 7])).1 ≠ [5, 7] ∧
    (buildOrLoadRadialMorphTarget ⟨[⟨1, 0, 0⟩], fun _ => none⟩ (some [5, 7])).2
      = some (bakeField ⟨[⟨1, 0, 0⟩], fun _ => none⟩) :=
  bake_cache_mismatch ⟨[⟨1, 0, 0⟩], fun _ => none⟩ [5, 7] (by decide)

/-! C5, C10: the per-frame audio pipeline state (Visualizer constructor
DOM.js 140-156, updateFFTAndBands DOM.js 509-535, frame DOM.js 630-640). -/

/-- The audio-analysis state mutated once per frame: `this.energy`,
`this.smooth`, `this.fast.bass` and `this.morphEnv` (DOM.js 141-143, 156). -/
structure AudioState where
  energy : BandEnergy
  smooth : BandEnergy
  fastBass : ℚ
  morphEnv : ℚ
deriving DecidableEq

/-- The two audio-driven uniforms written by the morph-gate block of
Visualizer.frame (DOM.js 639-640): `uMorph` (the morph blend) and
`uBassFast = gate * x` (the stellation input of the vertex shader). -/
structure FrameUniforms where
  uMorph : ℚ
  uBassFast : ℚ
deriving DecidableEq

/-- Embeds `Visualizer.updateFFTAndBands` (DOM.js 509-535): recomputes the
band energies from the snapshot and advances the slow smoothing track on all
four fields and the fast track on bass. -/
def updateFFTAndBands (sampleRate : ℚ) (spec : List ℕ) (st : AudioState) : AudioState :=
  let e := extractBands sampleRate spec
  { energy := e
    smooth := { bass := lerp st.smooth.bass e.bass smoothingSlow
                mid := lerp st.smooth.mid e.mid smoothingSlow
                treble := lerp st.smooth.treble e.treble smoothingSlow
                overall := lerp st.smooth.overall e.overall smoothingSlow }
    fastBass := lerp st.fastBass e.bass smoothingFast
    morphEnv := st.morphEnv }

/-- The audio part of one `Visualizer.frame` tick (DOM.js 558, 630-640):
update bands and smoothing, then run the morph gate on the fast-bass value
and write the `uMorph` and `uBassFast` uniforms. -/
def frameStep (sampleRate : ℚ) (spec : List ℕ) (st : AudioState) :
    AudioState × FrameUniforms :=
  let st1 := updateFFTAndBands sampleRate spec st
  let x := st1.fastBass
  let gate := smoothstepEdge (morphThreshold - morphKnee) (morphThreshold + morphKnee) x
  let env1 := morphEnvStep configMorph x st1.morphEnv
  ({ st1 with morphEnv := env1 }, { uMorph := env1, uBassFast := gate * x })

/-- The audio state set up by the Visualizer constructor (DOM.js 141-143,
156): all energies and smoothing tracks start at 0, the morph envelope at
`Config.morph.envInit`. -/
def initState : AudioState :=
  { energy := ⟨0, 0, 0, 0⟩, smooth := ⟨0, 0, 0, 0⟩, fastBass := 0,
    morphEnv := morphEnvInit }

/-- The initial value of the `uMorph` uniform at mesh construction
(DOM.js 270: `uMorph: { value: 0.05 }`). -/
def uMorphInit : ℚ := 5/100

/-- A silent snapshot: every one of the 1024 analyser bins reads 0. -/
def silentSpec : List ℕ := List.replicate 1024 0

/-- The audio state after n frames of silence from session start
(44.1 kHz context sample rate). -/
def silentIter : ℕ → AudioState
  | 0 => initState
  | n + 1 => (frameStep 44100 silentSpec (silentIter n)).1

/-- The gate's desired value at fast-bass 0 under the configured morph
parameters. -/
def dSilent : ℚ := morphDesired configMorph 0

theorem lerp_self (a t : ℚ) : lerp a a t = a := by
  unfold lerp
  ring

theorem dSilent_eq : dSilent = 265/4116 := by
  norm_num [dSilent, morphDesired, configMorph, morphThreshold, morphKnee,
    smoothstepEdge, clamp, min_def, max_def]

theorem extractBands_silent : extractBands 44100 silentSpec = ⟨0, 0, 0, 0⟩ := by
  have h : ∀ v ∈ silentSpec, v = 0 := fun v hv => List.eq_of_mem_replicate hv
  simp only [extractBands, BandEnergy.mk.injEq]
  exact ⟨avg_of_all_zero _ h _ _, avg_of_all_zero _ h _ _,
    avg_of_all_zero _ h _ _, avg_of_all_zero _ h _ _⟩

theorem silentIter_closed (n : ℕ) :
    silentIter n = { energy := ⟨0, 0, 0, 0⟩, smooth := ⟨0, 0, 0, 0⟩, fastBass := 0,
                     morphEnv := dSilent + (morphEnvInit - dSilent) * (19/20) ^ n } := by
  induction n with
  | zero =>
    show initState = _
    have h : dSilent + (morphEnvInit - dSilent) * (19/20) ^ (0 : ℕ) = morphEnvInit := by
      rw [pow_zero]
      ring
    rw [h]
    rfl
  | succ m ih =>
    show (frameStep 44100 silentSpec (silentIter m)).1 = _
    rw [ih]
    have henv : dSilent < dSilent + (morphEnvInit - dSilent) * (19/20) ^ m := by
      have hpos : (0 : ℚ) < (morphEnvInit - dSilent) * (19/20) ^ m :=
        mul_pos (by rw [dSilent_eq]; norm_num [morphEnvInit])
          (pow_pos (by norm_num) m)
      linarith
    have hd : morphDesired configMorph 0 = dSilent := rfl
    simp only [frameStep, updateFFTAndBands, extractBands_silent, lerp_self,
      morphEnvStep, hd]
    rw [if_neg (not_lt.2 henv.le)]
    have h2 : dSilent + (morphEnvInit - dSilent) * (19/20) ^ m
        + (dSilent - (dSilent + (morphEnvInit - dSilent) * (19/20) ^ m))
          * configMorph.release
        = dSilent + (morphEnvInit - dSilent) * (19/20) ^ (m + 1) := by
      have hr : configMorph.release = 5/100 := rfl
      rw [hr]
      ring
    rw [h2]

theorem silent_uBassFast (n : ℕ) :
    (frameStep 44100 silentSpec (silentIter n)).2.uBassFast = 0 := by
  rw [silentIter_closed n]
  simp only [frameStep, updateFFTAndBands, extractBands_silent, lerp_self]
  exact mul_zero _

/-- C5 counterexample: after 300 frames of silence (about five seconds at
60 fps) from the initial state, the morph envelope is still above 1/16; it
does not settle to 0 (the gate keeps `desired = 265/4116 > 0` at silence
because gateStart = threshold - knee = -1/2 is negative). -/
theorem silence_morphEnv_not_zero :
    1/16 < (silentIter 300).morphEnv ∧ (silentIter 300).morphEnv ≠ 0 := by
  rw [silentIter_closed 300]
  have hpos : (0 : ℚ) < (morphEnvInit - dSilent) * (19/20) ^ 300 :=
    mul_pos (by rw [dSilent_eq]; norm_num [morphEnvInit]) (pow_pos (by norm_num) 300)
  have hd : (1/16 : ℚ) < dSilent := by rw [dSilent_eq]; norm_num
  constructor
  · show (1/16 : ℚ) < dSilent + (morphEnvInit - dSilent) * (19/20) ^ 300
    linarith
  · show dSilent + (morphEnvInit - dSilent) * (19/20) ^ 300 ≠ 0
    have : (0 : ℚ) < dSilent + (morphEnvInit - dSilent) * (19/20) ^ 300 := by linarith
    exact ne_of_gt this

/-- C5 (amended): under sustained silence from session start all four band
energies are 0, all smoothing tracks stay exactly 0, the stellation input
`uBassFast` is 0 every frame, but the morph envelope follows
`dSilent + (envInit - dSilent)*(19/20)^n` and therefore settles to
`dSilent = 265/4116 ≈ 0.064`, not to 0. -/
theorem silence_settles (n : ℕ) :
    (silentIter n).energy = ⟨0, 0, 0, 0⟩ ∧
    (silentIter n).smooth = ⟨0, 0, 0, 0⟩ ∧
    (silentIter n).fastBass = 0 ∧
    (frameStep 44100 silentSpec (silentIter n)).2.uBassFast = 0 ∧
    (silentIter n).morphEnv = dSilent + (morphEnvInit - dSilent) * (19/20) ^ n ∧
    dSilent = 265/4116 := by
  have h := silentIter_closed n
  exact ⟨by rw [h], by rw [h], by rw [h], silent_uBassFast n, by rw [h], dSilent_eq⟩

/-! C9: `Visualizer.setPalette` (DOM.js 197-221) and the palette table
(Utility module). -/

/-- A palette record as returned by `palette(id)` (Utility module): colors
are kept as their source hex strings. -/
structure Palette where
  base : String
  glow : String
  line : String
  bgTop : String
  bgBot : String
deriving DecidableEq

/-- Embeds the `palette` switch of the Utility module: thirteen named
palettes with "synth" as the default branch. -/
def palette (id : String) : Palette :=
  if id = "noir" then ⟨"#8a2be2", "#d9b3ff", "#401a65", "#121224", "#090a12"⟩
  else if id = "burn" then ⟨"#ff6a00", "#ffd19c", "#5a1a00", "#18110f", "#0a0706"⟩
  else if id = "voltage" then ⟨"#ff0000", "#ffea00", "#660000", "#1a0a0a", "#0b0505"⟩
  else if id = "iron" then ⟨"#b0b0b0", "#ffffff", "#303030", "#0e0e12", "#050507"⟩
  else if id = "ember" then ⟨"#ff4500", "#ffa94d", "#661a00", "#1c0d05", "#090503"⟩
  else if id = "acid" then ⟨"#39ff14", "#b6ffb3", "#004400", "#101812", "#050805"⟩
  else if id = "storm" then ⟨"#0077ff", "#cce6ff", "#001a33", "#0a0f18", "#05070b"⟩
  else if id = "crimson" then ⟨"#d00030", "#ff8095", "#400010", "#18090c", "#080406"⟩
  else if id = "grunge" then ⟨"#7f6000", "#e6d96b", "#2e2500", "#12100a", "#060504"⟩
  else if id = "obsidian" then ⟨"#5b00ae", "#d1a3ff", "#1a0033", "#0e0c12", "#040305"⟩
  else if id = "hellfire" then ⟨"#ff2200", "#ff9933", "#660000", "#1a0b08", "#080302"⟩
  else if id = "diesel" then ⟨"#444444", "#bbbbbb", "#1a1a1a", "#101010", "#050505"⟩
  else ⟨"#a000ff", "#ff2ea6", "#1a1033", "#14162a", "#0a0b10"⟩

/-- The CSS backdrop written by `applyBackground` (Utility module). -/
def applyBackgroundCss (pal : Palette) : String :=
  "radial-gradient(1200px 800px at 50% 40%, " ++ pal.bgTop ++ " 0%, "
    ++ pal.bgBot ++ " 60%, #06070b 100%)"

/-- The palette-derived visual state named by the palette-swap invariant:
current palette, CSS backdrop, whether the old scene-background texture has
been disposed, the colors the scene-background texture was built from, the
cached HSL decompositions, the mesh base/glow color uniforms, and the glow
color the starfield vertex colors were baked from (DOM.js 98-121, 158-162,
214-220, 711-737). -/
structure VizPalState where
  pal : Palette
  cssBackground : String
  bgTexDisposed : Bool
  bgTexTop : String
  bgTexBot : String
  baseHSL : ℚ × ℚ × ℚ
  glowHSL : ℚ × ℚ × ℚ
  uBaseColor : String
  uGlowColor : String
  starfieldGlow : String

/-- Embeds `Visualizer.setPalette` (DOM.js 197-221) with JavaScript scoping.
`mixHex` is a function declaration local to the constructor body
(DOM.js 101-107) and is not in scope in the method, so the call
`mixHex(this.pal.bgTop, this.pal.bgBot, 0.5)` at DOM.js 205 raises
`ReferenceError: mixHex is not defined`.  The statements before it do run:
`this.pal = palette(id)` (198), `applyBackground(this.pal)` (201) and
`this._bgTex.dispose()` (204).  The background-texture rebuild, the HSL
cache refresh, the uniform pushes and `rebuildStarfield()` (205-220) never
execute.  Returns the state as mutated by the executed statements together
with the error. -/
def setPalette (st : VizPalState) (id : String) : VizPalState × Option String :=
  let st1 := { st with pal := palette id
                       cssBackground := applyBackgroundCss (palette id)
                       bgTexDisposed := true }
  (st1, some ("ReferenceError: mixHex is not defined"))

/-- C9 (code bug): `setPalette` throws before refreshing most of the
palette-derived state: the CSS backdrop is already switched to the new
palette (and the scene background texture disposed), while the background
texture colors, HSL caches, color uniforms and starfield tint all retain
values derived from the previous palette — the refresh is not atomic, for
every starting state and palette id.  For a concrete divergence: the glow
colors of "burn" and "noir" differ, so after `setPalette("noir")` on a
session built with "burn" the starfield tint still shows the old palette. -/
theorem setPalette_throws_partial_refresh (st : VizPalState) (id : String) :
    (setPalette st id).2 = some ("ReferenceError: mixHex is not defined") ∧
    (setPalette st id).1.pal = palette id ∧
    (setPalette st id).1.cssBackground = applyBackgroundCss (palette id) ∧
    (setPalette st id).1.bgTexDisposed = true ∧
    (setPalette st id).1.starfieldGlow = st.starfieldGlow ∧
    (setPalette st id).1.uBaseColor = st.uBaseColor ∧
    (setPalette st id).1.uGlowColor = st.uGlowColor ∧
    (setPalette st id).1.bgTexTop = st.bgTexTop ∧
    (setPalette st id).1.bgTexBot = st.bgTexBot ∧
    (setPalette st id).1.baseHSL = st.baseHSL ∧
    (setPalette st id).1.glowHSL = st.glowHSL ∧
    (palette ("burn")).glow ≠ (palette ("noir")).glow :=
  ⟨rfl, rfl, rfl, rfl, rfl, rfl, rfl, rfl, rfl, rfl, rfl, by decide⟩

/-! C10: initial values of the morph envelope and the uMorph uniform. -/

/-- C10 counterexample: before any audio frame is processed the morph blend
uniform `uMorph` holds its mesh-construction value 0.05, not 0.9; only the
`morphEnv` state field starts at `envInit = 0.9`. -/
theorem uMorph_initial_not_envInit :
    uMorphInit = 1/20 ∧ morphEnvInit = 9/10 ∧ uMorphInit ≠ morphEnvInit := by
  norm_num [uMorphInit, morphEnvInit]

/-- C10 (amended): at session start the morph envelope state is initialized
to `envInit = 0.9` (not 0), while the `uMorph` uniform is initialized to
0.05 at mesh construction; on every processed frame the uniform is written
with the updated envelope (so it first takes an envelope-derived value after
the first frame), and whenever the gate's desired value does not exceed the
envelope the update moves the envelope downward (toward desired). -/
theorem morphEnv_init_spec :
    initState.morphEnv = morphEnvInit ∧ morphEnvInit = 9/10 ∧ morphEnvInit ≠ 0 ∧
    uMorphInit = 5/100 ∧
    (∀ sampleRate : ℚ, ∀ spec : List ℕ, ∀ st : AudioState,
        (frameStep sampleRate spec st).2.uMorph
          = (frameStep sampleRate spec st).1.morphEnv) ∧
    (∀ x env : ℚ, morphDesired configMorph x ≤ env →
        morphEnvStep configMorph x env ≤ env) := by
  refine ⟨rfl, rfl, by norm_num [morphEnvInit], rfl, fun _ _ _ => rfl, ?_⟩
  intro x env h
  simp only [morphEnvStep]
  rw [if_neg (not_lt.2 h)]
  have hr : configMorph.release = 5/100 := rfl
  rw [hr]
  nlinarith

theorem morphEnv_init_spec_witness :
    morphDesired configMorph 0 ≤ 9/10 ∧ morphEnvStep configMorph 0 (9/10) ≤ 9/10 := by
  have h : morphDesired configMorph 0 ≤ 9/10 := by
    rw [show morphDesired configMorph 0 = dSilent from rfl, dSilent_eq]
    norm_num
  exact ⟨h, morphEnv_init_spec.2.2.2.2.2 0 (9/10) h⟩

end Soundscape
